import Mathlib

/-
  A shallow embedding of `helenus.py`, a schemaless document-style layer
  over Postgres.  The Python module talks to the engine through psycopg2
  cursors; here the engine is modelled explicitly as a `Engine` value
  (tables with a column list and rows, plus a log of every statement the
  layer issues), and each method of the module becomes a pure function
  threading that state.  Machine-level details that no property here
  depends on (transaction rollback, the engine's textual SQL parser) are
  not modelled; generated statement *text* is modelled exactly where the
  code builds it (`insert`'s column list and placeholders, `query`'s
  WHERE clause), since several properties are about that text.
-/

namespace helenus

/-- Python runtime values that can appear in a record or a filter operand.
`float` is carried as a rational: no property below does float arithmetic. -/
inductive PyVal where
  | str (s : String)
  | int (n : Int)
  | float (q : Rat)
  | list (xs : List PyVal)
  | dict (xs : List (String × PyVal))
  | none
  | bool (b : Bool)

/-- The Python type tags relevant to `Table.type_mapping` lookups
(`type(value)` in the source). -/
inductive PyType where
  | str | int | float | list | dict | noneType | bool
deriving DecidableEq, Repr

/-- Embeds Python `type(value)`.  Note Python's `type(True)` is `bool`,
which is a distinct dict key from `int`. -/
def pyTypeOf : PyVal → PyType
  | .str _ => .str
  | .int _ => .int
  | .float _ => .float
  | .list _ => .list
  | .dict _ => .dict
  | .none => .noneType
  | .bool _ => .bool

/-- Values as stored in the engine / bound by the driver.  A `json`-typed
value never arises: the code's `json.dumps` call raises `NameError`
before ever producing one (the `json` module is not imported). -/
inductive SqlVal where
  | text (s : String)
  | int (n : Int)
  | num (q : Rat)
  | bool (b : Bool)
deriving DecidableEq, Repr

/-- Failures surfaced to the caller: Python-level exceptions
(`keyError` from the `type_mapping` dict lookup, `nameError` from the
unimported `json` module, `noResultsToFetch` from `fetchall()` on a
cursor that executed nothing, `adaptError` from binding an unadaptable
parameter) and engine-level errors (unknown table/column, type
mismatch, malformed condition). -/
inductive Err where
  | keyError
  | nameError
  | noResultsToFetch
  | adaptError
  | undefinedTable
  | undefinedColumn
  | typeMismatch
  | syntaxError
deriving DecidableEq, Repr

/-- Statements issued to the engine, in issue order.  `insertRow`,
`selectQ` and `rawSelect` carry the exact statement text the code builds. -/
inductive Stmt where
  | createTable (name : String)
  | addColumn (tname cname ty : String)
  | insertRow (text : String)
  | selectQ (text : String)
  | rawSelect (text : String)
  | truncateT (name : String)
  | catalogExists (name : String)
  | catalogColumns (name : String)
deriving DecidableEq, Repr

/-- Association-list lookup on string keys (Python dict read). -/
def alookup {α : Type} : List (String × α) → String → Option α
  | [], _ => Option.none
  | (k, v) :: rest, n => if k = n then some v else alookup rest n

/-- Association-list write with Python-dict semantics: an existing key is
updated in place (insertion order kept), a new key is appended. -/
def aupsert {α : Type} : List (String × α) → String → α → List (String × α)
  | [], k, v => [(k, v)]
  | (k', v') :: rest, k, v =>
      if k' = k then (k', v) :: rest else (k', v') :: aupsert rest k v

/-- One stored row: only the non-NULL cells; a column absent from the
list holds SQL NULL. -/
abbrev Row := List (String × SqlVal)

/-- The data of one backing table: its columns (name and the storage
type they were created with, in creation order) and its rows. -/
structure TableData where
  cols : List (String × String)
  rows : List Row
deriving Repr

/-- The relational engine as seen through one connection: the tables and
the log of every statement this layer has issued. -/
structure Engine where
  tables : List (String × TableData)
  log : List Stmt
deriving Repr

def Engine.lookupTable (e : Engine) (n : String) : Option TableData :=
  alookup e.tables n

def Engine.logStmt (e : Engine) (s : Stmt) : Engine :=
  { e with log := e.log ++ [s] }

def Engine.setTable (e : Engine) (n : String) (td : TableData) : Engine :=
  { e with tables := aupsert e.tables n td }

def Engine.rowsOf (e : Engine) (n : String) : List Row :=
  ((e.lookupTable n).map TableData.rows).getD []

def Engine.colsOf (e : Engine) (n : String) : List (String × String) :=
  ((e.lookupTable n).map TableData.cols).getD []

/-- The storage type a given column of a given table was created with. -/
def Engine.colType (e : Engine) (t c : String) : Option String :=
  alookup (e.colsOf t) c

/-- `Table._exists`: the catalog lookup for the table's existence
(source lines 56-66). -/
def Table._exists (e : Engine) (name : String) : Engine × Bool :=
  (e.logStmt (.catalogExists name), (e.lookupTable name).isSome)

/-- How `information_schema.columns.data_type` reports a created type:
`varchar` reads back as `character varying`; the other created types
(`bigint`, `numeric`, `json`) read back unchanged. -/
def dataTypeOf (ty : String) : String :=
  if ty = "varchar" then "character varying" else ty

/-- `Table.columns`: the catalog read of the live column map
(source lines 68-77). -/
def Table.columns (e : Engine) (name : String) : Engine × List (String × String) :=
  (e.logStmt (.catalogColumns name),
   (e.colsOf name).map (fun p => (p.1, dataTypeOf p.2)))

/-- `Table.add_column` (source lines 79-85): ALTER TABLE ... ADD COLUMN
IF NOT EXISTS, a no-op when the column is already present. -/
def Table.add_column (e : Engine) (tname cname ty : String) :
    Engine × Except Err Unit :=
  let e1 := e.logStmt (.addColumn tname cname ty)
  match e1.lookupTable tname with
  | Option.none => (e1, .error .undefinedTable)
  | some td =>
      if (alookup td.cols cname).isSome then (e1, .ok ())
      else (e1.setTable tname { td with cols := td.cols ++ [(cname, ty)] }, .ok ())

/-- `Table.__init__` (source lines 42-54): check existence, CREATE TABLE
if absent, then read the column map for the log line. -/
def Table.init (e : Engine) (name : String) : Engine :=
  let p := Table._exists e name
  let e2 := if p.2 then p.1
            else ((p.1.logStmt (.createTable name)).setTable name ⟨[], []⟩)
  (Table.columns e2 name).1

/-- The connection object: its per-name handle registry (`self.tables`),
a counter allocating handle identities, and the engine state. -/
structure Helenus where
  tables : List (String × Nat)
  nextId : Nat
  eng : Engine

/-- `Helenus.table` (source lines 23-25):
`self.tables[name] = self.tables.get(name, Table(self.connection, name))`.
Python evaluates the `get` default eagerly, so a fresh `Table` object is
constructed (running `__init__` against the engine) on *every* call; the
handle stored and returned is the cached one when the key is present. -/
def Helenus.table (h : Helenus) (name : String) : Helenus × Nat :=
  let fresh := h.nextId
  let e1 := Table.init h.eng name
  let chosen := (alookup h.tables name).getD fresh
  ({ tables := aupsert h.tables name chosen, nextId := h.nextId + 1, eng := e1 },
   chosen)

/-- `Table.type_mapping` (source lines 34-40): the Python-type → storage
type dict; a type outside the dict is a `KeyError` (`Option.none` here). -/
def Table.type_mapping : PyType → Option String
  | .str => some "varchar"
  | .int => some "bigint"
  | .float => some "numeric"
  | .list => some "json"
  | .dict => some "json"
  | _ => Option.none

/-- A filter expression (class `Field`, source lines 129-163):
`name`, and `value`/`op` which start as Python `None`. -/
structure Field where
  name : String
  value : PyVal := .none
  op : Option String := Option.none

def Field.equals (f : Field) (v : PyVal) : Field :=
  { f with value := v, op := some "=" }

def Field.exists (f : Field) : Field :=
  { f with value := .str "", op := some "is not null and '' =" }

def Field.greater_than (f : Field) (v : PyVal) : Field :=
  { f with value := v, op := some ">" }

def Field.less_than (f : Field) (v : PyVal) : Field :=
  { f with value := v, op := some "<" }

def Field.greater_or_equal (f : Field) (v : PyVal) : Field :=
  { f with value := v, op := some ">=" }

def Field.less_or_equal (f : Field) (v : PyVal) : Field :=
  { f with value := v, op := some "<=" }

/-- Driver adaptation of one Python value to a bound SQL parameter
(`None` becomes NULL).  Sequence/map values bound into a non-JSON slot
are not modelled beyond failing (the code's paths that reach binding
with such a value are not exercised by any property here). -/
def bindPy : PyVal → Except Err (Option SqlVal)
  | .str s => .ok (some (.text s))
  | .int n => .ok (some (.int n))
  | .float q => .ok (some (.num q))
  | .bool b => .ok (some (.bool b))
  | .none => .ok Option.none
  | .list _ => .error .adaptError
  | .dict _ => .error .adaptError

/-- SQL comparison of two non-NULL stored values; incompatible types are
an engine error. -/
def sqlCompare : SqlVal → SqlVal → Except Err Ordering
  | .text a, .text b => .ok (compare a b)
  | .int a, .int b => .ok (compare a b)
  | .num a, .num b => .ok (compare a b)
  | .int a, .num b => .ok (compare (a : Rat) b)
  | .num a, .int b => .ok (compare a (b : Rat))
  | .bool a, .bool b => .ok (compare a b)
  | _, _ => .error .typeMismatch

/-- The comparison operator strings the builders can emit besides the
`exists()` one. -/
def isCmpOp (s : String) : Bool :=
  s = "=" || s = ">" || s = "<" || s = ">=" || s = "<="

def testOrd (op : String) (o : Ordering) : Bool :=
  if op = "=" then o = .eq
  else if op = ">" then o = .gt
  else if op = "<" then o = .lt
  else if op = ">=" then o ≠ .lt
  else if op = "<=" then o ≠ .gt
  else false

/-- SQL semantics of one rendered condition `<name> <op> %(<name>)s`
against one row, under SQL three-valued logic collapsed to "does the
row match" (UNKNOWN does not match).  For `exists()` the rendered text
is `<name> is not null and '' = %(<name>)s`. -/
def evalFieldCond (row : Row) (params : List (String × Option SqlVal))
    (f : Field) : Except Err Bool :=
  match f.op with
  | Option.none => .error .syntaxError
  | some o =>
    if o = "is not null and '' =" then
      match (alookup params f.name).getD Option.none with
      | Option.none => .ok false
      | some p =>
          (sqlCompare (.text "") p).map
            (fun ord => (alookup row f.name).isSome && ord = .eq)
    else if isCmpOp o then
      match alookup row f.name, (alookup params f.name).getD Option.none with
      | some c, some p => (sqlCompare c p).map (testOrd o)
      | _, _ => .ok false
    else .error .syntaxError

/-- Conjunction of all conditions on one row. -/
def evalConds (params : List (String × Option SqlVal)) (row : Row) :
    List Field → Except Err Bool
  | [] => .ok true
  | f :: rest => do
      let b ← evalFieldCond row params f
      let b2 ← evalConds params row rest
      pure (b && b2)

/-- WHERE-filtering of the table's rows (errors propagate, as a raised
driver exception). -/
def filterRows (params : List (String × Option SqlVal)) (fs : List Field) :
    List Row → Except Err (List Row)
  | [] => .ok []
  | r :: rs => do
      let b ← evalConds params r fs
      let rest ← filterRows params fs rs
      pure (if b then r :: rest else rest)

/-- The text of one rendered condition, exactly as source line 113 builds
it: `"\x7b\x7d \x7b\x7d %(\x7b\x7d)s".format(f.name, f.op, f.name)`
(Python renders an unset operator as the text `None`). -/
def renderCond (f : Field) : String :=
  f.name ++ " " ++ (match f.op with | some o => o | Option.none => "None")
    ++ " %(" ++ f.name ++ ")s"

/-- The WHERE body: `" AND ".join(...)` over the rendered conditions. -/
def whereClause (fs : List Field) : String :=
  String.intercalate " AND " (fs.map renderCond)

/-- The full SELECT text `query` builds (source lines 109-113): no WHERE
keyword at all when the argument list is empty. -/
def queryStmtText (tname : String) (fs : List Field) : String :=
  if fs.isEmpty then "SELECT * FROM " ++ tname
  else "SELECT * FROM " ++ tname ++ " WHERE " ++ whereClause fs

/-- `fmt_values` (source line 114): the Python dict
`{f.name: f.value for f in args}` — a later expression with the same
field name overwrites the earlier one's operand. -/
def fmt_values (fs : List Field) : List (String × PyVal) :=
  fs.foldl (fun m f => aupsert m f.name f.value) []

/-- Driver adaptation of the whole parameter dict. -/
def bindParams : List (String × PyVal) → Except Err (List (String × Option SqlVal))
  | [] => .ok []
  | (k, v) :: rest => do
      let b ← bindPy v
      let bs ← bindParams rest
      pure ((k, b) :: bs)

/-- One positional argument of `query(*args)`: a `Field`, a string, or
anything else. -/
inductive QueryArg where
  | field (f : Field)
  | raw (s : String)
  | other (v : PyVal)

def QueryArg.isField : QueryArg → Bool
  | .field _ => true
  | _ => false

def QueryArg.isStr : QueryArg → Bool
  | .raw _ => true
  | _ => false

def getFields : List QueryArg → List Field
  | [] => []
  | .field f :: r => f :: getFields r
  | _ :: r => getFields r

/-- What a `query` call hands back: rows, or (on the raw-string escape
hatch) the executed raw statement's text — raw SQL is not interpreted
by this model. -/
inductive QueryResult where
  | rows (rs : List Row)
  | rawRows (stmtText : String)

/-- `Table.query` (source lines 107-121).  All-`Field` arguments (also
the empty call) take the parameterized branch; exactly one string takes
the raw branch; anything else executes nothing and `fetchall()` raises. -/
def Table.query (e : Engine) (tname : String) (args : List QueryArg) :
    Engine × Except Err QueryResult :=
  if args.all QueryArg.isField then
    let fs := getFields args
    let stmt := queryStmtText tname fs
    let fmt := fmt_values fs
    let e1 := e.logStmt (.selectQ stmt)
    match e.lookupTable tname with
    | Option.none => (e1, .error .undefinedTable)
    | some td =>
        if fs.all (fun f => (alookup td.cols f.name).isSome) then
          match bindParams fmt with
          | .error er => (e1, .error er)
          | .ok params =>
              match filterRows params fs td.rows with
              | .error er => (e1, .error er)
              | .ok rs => (e1, .ok (.rows rs))
        else (e1, .error .undefinedColumn)
  else
    match args with
    | [.raw s] =>
        let stmt := "SELECT * FROM " ++ tname ++ " WHERE " ++ s
        (e.logStmt (.rawSelect stmt), .ok (.rawRows stmt))
    | _ => (e, .error .noResultsToFetch)

/-- The INSERT text built at source lines 88 and 95-97:
`INSERT INTO <t> (<keys>) VALUES (<placeholders>)` with the record's
keys embedded verbatim both as the column list and inside the
`%(...)s` placeholders. -/
def insertStmtText (tname : String) (keys : List String) : String :=
  "INSERT INTO " ++ tname ++ " (" ++ String.intercalate "," keys
    ++ ") VALUES ("
    ++ String.intercalate "," (keys.map (fun k => "%(" ++ k ++ ")s")) ++ ")"

/-- The reconciliation loop of `insert` (source lines 89-93): for each
key not among the current columns, look up the storage type for the
value's Python type (`KeyError` when unmapped) and add the column. -/
def insLoop (tname : String) : Engine → List (String × PyVal) →
    Engine × Except Err Unit
  | e, [] => (e, .ok ())
  | e, (k, v) :: rest =>
      let p := Table.columns e tname
      if (alookup p.2 k).isSome then insLoop tname p.1 rest
      else
        match Table.type_mapping (pyTypeOf v) with
        | Option.none => (p.1, .error .keyError)
        | some ty =>
            match Table.add_column p.1 tname k ty with
            | (e2, .ok _) => insLoop tname e2 rest
            | (e2, .error er) => (e2, .error er)

/-- The parameter dict built at source lines 101-104:
`{k: (json.dumps(v) if _cols[k] == 'json' else v) for k, v in obj.items()}`.
The module never imports `json`, so the first item whose column reads
back as `json` raises `NameError`. -/
def bindInsertParams (cols : List (String × String)) :
    List (String × PyVal) → Except Err (List (String × Option SqlVal))
  | [] => .ok []
  | (k, v) :: rest =>
      if alookup cols k = some "json" then .error .nameError
      else do
        let b ← bindPy v
        let bs ← bindInsertParams cols rest
        pure ((k, b) :: bs)

/-- Can a bound value be stored in a column of the given created type? -/
def valCompat (ty : String) : SqlVal → Bool
  | .text _ => ty = "varchar" || ty = "json"
  | .int _ => ty = "bigint" || ty = "numeric"
  | .num _ => ty = "numeric"
  | .bool _ => false

/-- Engine-side check of an INSERT's bound values against the listed
columns (NULL is storable anywhere; an unknown column is a mismatch). -/
def typeCheck (cols : List (String × String)) :
    List (String × Option SqlVal) → Bool
  | [] => true
  | (k, Option.none) :: rest => (alookup cols k).isSome && typeCheck cols rest
  | (k, some v) :: rest =>
      (match alookup cols k with
       | some ty => valCompat ty v
       | Option.none => false) && typeCheck cols rest

/-- The row actually stored: the non-NULL bound cells. -/
def mkRow (params : List (String × Option SqlVal)) : Row :=
  params.filterMap (fun p => p.2.map (fun v => (p.1, v)))

/-- Engine execution of the INSERT statement: log it, type-check,
append the row. -/
def Engine.execInsert (e : Engine) (tname : String) (stmtText : String)
    (params : List (String × Option SqlVal)) : Engine × Except Err Unit :=
  let e1 := e.logStmt (.insertRow stmtText)
  match e1.lookupTable tname with
  | Option.none => (e1, .error .undefinedTable)
  | some td =>
      if typeCheck td.cols params then
        (e1.setTable tname { td with rows := td.rows ++ [mkRow params] }, .ok ())
      else (e1, .error .typeMismatch)

/-- `Table.insert` (source lines 87-105): reconcile the schema, build
the statement text, re-read the column map, build the parameter dict
(where the missing `json` import bites), execute, commit. -/
def Table.insert (e : Engine) (tname : String) (obj : List (String × PyVal)) :
    Engine × Except Err Unit :=
  match insLoop tname e obj with
  | (e1, .error er) => (e1, .error er)
  | (e1, .ok _) =>
      let stmt := insertStmtText tname (obj.map Prod.fst)
      let p := Table.columns e1 tname
      match bindInsertParams p.2 obj with
      | .error er => (p.1, .error er)
      | .ok params => Engine.execInsert p.1 tname stmt params

/-- `Table.truncate` (source lines 123-126). -/
def Table.truncate (e : Engine) (tname : String) : Engine × Except Err Unit :=
  let e1 := e.logStmt (.truncateT tname)
  match e1.lookupTable tname with
  | Option.none => (e1, .error .undefinedTable)
  | some td => (e1.setTable tname { td with rows := [] }, .ok ())

/-- One caller-level operation on a collection, for stating properties
of operation sequences. -/
inductive Op where
  | ins (tname : String) (obj : List (String × PyVal))
  | qry (tname : String) (args : List QueryArg)
  | trunc (tname : String)

/-- The engine state after an operation (whether or not it raised). -/
def runOp (e : Engine) : Op → Engine
  | .ins t o => (Table.insert e t o).1
  | .qry t a => (Table.query e t a).1
  | .trunc t => (Table.truncate e t).1

def runOps (e : Engine) (ops : List Op) : Engine :=
  ops.foldl runOp e

/-- The identifier validation the specification mandates (restrict
field/column names to alphanumerics and underscore); defined from the
spec's words, to state whether the code applies any such check. -/
def specSafeIdent (s : String) : Bool :=
  s ≠ "" && s.toList.all (fun c => c.isAlphanum || c = '_')

/-- Did this statement create a table? -/
def Stmt.isCreate : Stmt → Bool
  | .createTable _ => true
  | _ => false

/-- Did this statement execute an INSERT? -/
def Stmt.isInsert : Stmt → Bool
  | .insertRow _ => true
  | _ => false

/-- The `Field(name)` constructor (source lines 130-133). -/
def mkField (n : String) : Field := { name := n }

/- Association-list lemmas. -/

theorem alookup_aupsert {α : Type} (m : List (String × α)) (k : String) (v : α)
    (n : String) :
    alookup (aupsert m k v) n = if k = n then some v else alookup m n := by
  induction m with
  | nil => simp [aupsert, alookup]
  | cons p rest ih =>
      obtain ⟨k', v'⟩ := p
      by_cases hk : k' = k
      · subst hk
        by_cases hn : k' = n <;> simp [aupsert, alookup, hn]
      · by_cases hn : k' = n
        · subst hn
          simp [aupsert, alookup, hk]
          rw [if_neg (fun h => hk h.symm)]
        · simp [aupsert, alookup, hk, hn, ih]

theorem alookup_append {α : Type} (l₁ l₂ : List (String × α)) (n : String) :
    alookup (l₁ ++ l₂) n =
      match alookup l₁ n with
      | some v => some v
      | Option.none => alookup l₂ n := by
  induction l₁ with
  | nil => simp [alookup]
  | cons p rest ih =>
      by_cases h : p.1 = n <;> simp [alookup, h, ih]

theorem alookup_mapVal {α β : Type} (l : List (String × α)) (g : α → β)
    (n : String) :
    alookup (l.map (fun p => (p.1, g p.2))) n = (alookup l n).map g := by
  induction l with
  | nil => simp [alookup]
  | cons p rest ih =>
      by_cases h : p.1 = n <;> simp [alookup, h, ih]

/- Concrete engine states used to evaluate the model at specific inputs. -/

/-- A freshly created, empty collection `test` (no columns, no rows). -/
def egFresh : Engine := { tables := [("test", ⟨[], []⟩)], log := [] }

/-- A collection `t` with one `varchar` column `x` and no rows. -/
def egVarchar : Engine := { tables := [("t", ⟨[("x", "varchar")], []⟩)], log := [] }

/-- A collection `t` whose single row holds the empty string in column `f`. -/
def egEmptyStr : Engine :=
  { tables := [("t", ⟨[("f", "varchar")], [[("f", .text "")]]⟩)], log := [] }

/-- A collection `t` with a `bigint` column `x` and one row where `x = 3`. -/
def egInt : Engine :=
  { tables := [("t", ⟨[("x", "bigint")], [[("x", .int 3)]]⟩)], log := [] }

/-- A field name that is obviously outside any safe identifier charset. -/
def badName : String := "evil; DROP TABLE users --"

/-- C1: the code performs no identifier validation: a field name far
outside the alphanumeric/underscore charset is embedded verbatim both
into the WHERE clause text built by `query` and into the column list
built by `insert`, and the insert completes successfully instead of
failing.  (The specification mandates a validation the code omits.) -/
theorem C1_no_identifier_validation :
    specSafeIdent badName = false ∧
    whereClause [(mkField badName).equals (PyVal.int 1)]
      = "evil; DROP TABLE users -- = %(evil; DROP TABLE users --)s" ∧
    insertStmtText "t" [badName]
      = "INSERT INTO t (evil; DROP TABLE users --) VALUES (%(evil; DROP TABLE users --)s)" ∧
    (Table.insert egFresh "test" [(badName, PyVal.str "v")]).2 = .ok () :=
  ⟨by decide, rfl, rfl, rfl⟩

/-- C2: inserting a record with a structured (list) value does not
serialize it and succeed — it raises `NameError`, because line 102's
`json.dumps` refers to a module the file never imports.  The column is
reconciled to storage type `json` first, so every such insert takes the
`json.dumps` branch; no row is written. -/
theorem C2_structured_insert_raises_nameError :
    Table.type_mapping (pyTypeOf (PyVal.list [.str "one", .str "two"])) = some "json" ∧
    (Table.insert egFresh "test" [("list", PyVal.list [.str "one", .str "two"])]).2
      = .error .nameError ∧
    (Table.insert egFresh "test" [("list", PyVal.list [.str "one", .str "two"])]).1.rowsOf "test"
      = [] :=
  ⟨rfl, rfl, rfl⟩

/-- C3 (counterexample): querying `exists()` on a field that is not a
column of the collection does not return an empty result — the engine
rejects the generated WHERE clause with an undefined-column error,
which `query` propagates. -/
theorem C3_counterexample :
    (Table.query egVarchar "t" [.field ((mkField "list").exists)]).2
      = .error .undefinedColumn :=
  rfl

/-- C4 (counterexample): a row whose value at `f` is the empty string
*does* match `Field(f).exists()`: the rendered predicate is
`f is not null and '' = %(f)s` with the parameter bound to `""`, so its
second conjunct is the tautology `'' = ''`. -/
theorem C4_counterexample :
    (Table.query egEmptyStr "t" [.field ((mkField "f").exists)]).2
      = .ok (.rows [[("f", .text "")]]) ∧
    alookup [("f", SqlVal.text "")] "f" = some (.text "") :=
  ⟨rfl, rfl⟩

/-- C6 (counterexample): a record whose value kind is outside
`type_mapping` (Python `None`) does not make `insert` fail when the
field already is a column: the mapping is only consulted for missing
columns, so the INSERT executes and a row (all-NULL here) is written. -/
theorem C6_counterexample :
    Table.type_mapping (pyTypeOf PyVal.none) = Option.none ∧
    (Table.insert egVarchar "t" [("x", PyVal.none)]).2 = .ok () ∧
    (Table.insert egVarchar "t" [("x", PyVal.none)]).1.rowsOf "t" = [[]] :=
  ⟨rfl, rfl, rfl⟩

/- Behavior of the parameterized SELECT path. -/

theorem filterRows_exists (f : Field) (rows : List Row) :
    filterRows [(f.name, some (SqlVal.text ""))] [f.exists] rows
      = .ok (rows.filter (fun r => (alookup r f.name).isSome)) := by
  induction rows with
  | nil => rfl
  | cons r rs ih =>
      have hc : compare "" "" = Ordering.eq := by decide
      simp only [Field.exists] at ih
      simp [filterRows, evalConds, evalFieldCond, Field.exists, alookup, sqlCompare,
            Except.map, hc, ih]
      rw [List.filter_cons]
      cases h : (alookup r f.name).isSome <;> rfl

/-- C3 (amended): `query(Field(f).exists())` on a collection that lacks
column `f` raises an undefined-column engine error (the generated WHERE
clause references the missing column), instead of returning an empty
result. -/
theorem C3_missing_column_errors (e : Engine) (t : String) (td : TableData)
    (f : Field) (h1 : e.lookupTable t = some td)
    (h2 : alookup td.cols f.name = Option.none) :
    (Table.query e t [.field f.exists]).2 = .error .undefinedColumn := by
  simp [Table.query, QueryArg.isField, getFields, h1, Field.exists, h2]

/-- C3 witness: on a collection with only column `x`, the exists-query
for `list` errors as the amended claim states. -/
theorem C3_missing_column_errors_witness :
    (Table.query egVarchar "t" [.field ((mkField "list").exists)]).2
      = .error .undefinedColumn :=
  C3_missing_column_errors egVarchar "t" ⟨[("x", "varchar")], []⟩
    (mkField "list") rfl rfl

/-- C4 (amended): the predicate compiled from `Field(f).exists()` is
equivalent to `f IS NOT NULL` alone: because the operand bound for the
rendered `'' = %(f)s` conjunct is itself the empty string, that conjunct
is a tautology, and a row holding the empty string at `f` matches. -/
theorem C4_exists_means_not_null (e : Engine) (t : String) (td : TableData)
    (f : Field) (h1 : e.lookupTable t = some td)
    (h2 : (alookup td.cols f.name).isSome = true) :
    (Table.query e t [.field f.exists]).2
      = .ok (.rows (td.rows.filter (fun r => (alookup r f.name).isSome))) := by
  have hb : bindParams (fmt_values [f.exists])
      = Except.ok [(f.name, some (SqlVal.text ""))] := rfl
  have hf := filterRows_exists f td.rows
  simp only [Field.exists] at hb hf
  simp [Table.query, QueryArg.isField, getFields, h1, Field.exists, h2, hb, hf]

/-- C4 witness: on a one-row collection whose row holds `''` at `f`,
the exists-query returns that row (it is not NULL). -/
theorem C4_exists_means_not_null_witness :
    (Table.query egEmptyStr "t" [.field ((mkField "f").exists)]).2
      = .ok (.rows [[("f", .text "")]]) := by
  have h := C4_exists_means_not_null egEmptyStr "t"
    ⟨[("f", "varchar")], [[("f", .text "")]]⟩ (mkField "f") rfl rfl
  simpa using h

/- The parameter dict `fmt_values`: Python dict-comprehension semantics. -/

theorem mem_keys_aupsert {α : Type} (m : List (String × α)) (k : String) (v : α)
    (n : String) :
    n ∈ (aupsert m k v).map Prod.fst ↔ n ∈ m.map Prod.fst ∨ n = k := by
  induction m with
  | nil => simp [aupsert]
  | cons p rest ih =>
      by_cases h : p.1 = k
      · simp [aupsert, h]
        tauto
      · simp [aupsert, h, ih]
        tauto

theorem keys_nodup_aupsert {α : Type} (m : List (String × α)) (k : String) (v : α)
    (h : (m.map Prod.fst).Nodup) : ((aupsert m k v).map Prod.fst).Nodup := by
  induction m with
  | nil => simp [aupsert]
  | cons p rest ih =>
      simp only [List.map_cons, List.nodup_cons] at h
      by_cases hk : p.1 = k
      · simpa [aupsert, hk, List.nodup_cons] using h
      · have := ih h.2
        simp only [aupsert, hk, if_false, List.map_cons, List.nodup_cons]
        refine ⟨?_, this⟩
        rw [mem_keys_aupsert]
        rintro (h' | h')
        · exact h.1 h'
        · exact hk h'

theorem alookup_fmt_values_aux (fs : List Field) (m : List (String × PyVal))
    (n : String) :
    alookup (fs.foldl (fun acc f => aupsert acc f.name f.value) m) n =
      match fs.reverse.find? (fun f => f.name == n) with
      | some f => some f.value
      | Option.none => alookup m n := by
  induction fs generalizing m with
  | nil => simp
  | cons f t ih =>
      simp only [List.foldl_cons, List.reverse_cons, List.find?_append]
      rw [ih]
      cases hfind : t.reverse.find? (fun g => g.name == n) with
      | some g => simp [Option.or]
      | none =>
          by_cases hn : f.name = n
          · simp [Option.or, List.find?, hn, alookup_aupsert]
          · have hb : (f.name == n) = false := by simp [hn]
            simp [Option.or, List.find?, hb, alookup_aupsert, hn]

/-- The compiled parameter dict, characterized: looking up a name yields
the operand of the *last* expression in argument order bearing that
name (Python dict-comprehension overwrite semantics). -/
theorem alookup_fmt_values (fs : List Field) (n : String) :
    alookup (fmt_values fs) n =
      match fs.reverse.find? (fun f => f.name == n) with
      | some f => some f.value
      | Option.none => Option.none := by
  have := alookup_fmt_values_aux fs [] n
  simpa [fmt_values, alookup] using this

theorem keys_nodup_fmt_values_aux (fs : List Field) (m : List (String × PyVal))
    (h : (m.map Prod.fst).Nodup) :
    (((fs.foldl (fun acc f => aupsert acc f.name f.value) m)).map Prod.fst).Nodup := by
  induction fs generalizing m with
  | nil => simpa using h
  | cons f t ih => exact ih _ (keys_nodup_aupsert m f.name f.value h)

/-- C9: the compiled parameter map holds a single value per field name
(its key list is duplicate-free), and that value is the operand of the
last expression in argument order with that name; concretely,
`query(Field("x").greater_than(1), Field("x").less_than(5))` binds both
`%(x)s` placeholders to 5, so the row `x = 3`, which satisfies
`1 < x < 5`, is not returned. -/
theorem C9_last_binding_wins :
    (∀ fs : List Field, ((fmt_values fs).map Prod.fst).Nodup) ∧
    (∀ (fs : List Field) (n : String),
        alookup (fmt_values fs) n =
          match fs.reverse.find? (fun f => f.name == n) with
          | some f => some f.value
          | Option.none => Option.none) ∧
    fmt_values [(mkField "x").greater_than (.int 1), (mkField "x").less_than (.int 5)]
      = [("x", PyVal.int 5)] ∧
    (Table.query egInt "t" [.field ((mkField "x").greater_than (.int 1)),
                            .field ((mkField "x").less_than (.int 5))]).2
      = .ok (.rows []) :=
  ⟨fun fs => keys_nodup_fmt_values_aux fs [] (by simp),
   alookup_fmt_values, rfl, rfl⟩

/- Compilation of the WHERE clause and parameter binding. -/

theorem filterRows_no_conds (ps : List (String × Option SqlVal)) (rows : List Row) :
    filterRows ps [] rows = .ok rows := by
  induction rows with
  | nil => rfl
  | cons r rs ih => simp [filterRows, evalConds, ih]; rfl

theorem find?_name_unique (l : List Field) (f : Field)
    (hnd : (l.map Field.name).Nodup) (hmem : f ∈ l) :
    l.find? (fun g => g.name == f.name) = some f := by
  induction l with
  | nil => cases hmem
  | cons g t ih =>
      simp only [List.map_cons, List.nodup_cons] at hnd
      rcases List.mem_cons.mp hmem with h | h
      · subst h
        simp [List.find?]
      · have hne : (g.name == f.name) = false := by
          refine beq_eq_false_iff_ne.mpr ?_
          intro hEq
          exact hnd.1 (hEq ▸ List.mem_map_of_mem Field.name h)
        simp [List.find?, hne, ih hnd.2 h]

/-- C5 (amended): with zero filter expressions the statement has no
WHERE clause and all rows come back; with one or more, the WHERE clause
is the AND-conjunction of each expression rendered as
`<field> <operator> %(<field>)s`; operand values never appear in the
statement text (it is unchanged when every operand is erased); and
*when the field names are pairwise distinct* every operand is bound in
the parameter dict under its field name.  (With duplicate names, only
the last operand per name is bound — see the C9 analysis — which is
what forces the distinctness proviso onto the original claim.) -/
theorem C5_query_compilation (e : Engine) (t : String) (fs : List Field) :
    (fs = [] → queryStmtText t fs = "SELECT * FROM " ++ t ∧
      ∀ td, e.lookupTable t = some td →
        (Table.query e t (fs.map QueryArg.field)).2 = .ok (.rows td.rows)) ∧
    (fs ≠ [] → queryStmtText t fs
        = "SELECT * FROM " ++ t ++ " WHERE "
          ++ String.intercalate " AND " (fs.map renderCond)) ∧
    queryStmtText t fs
      = queryStmtText t (fs.map (fun f => { f with value := PyVal.none })) ∧
    ((fs.map Field.name).Nodup →
      ∀ f ∈ fs, alookup (fmt_values fs) f.name = some f.value) := by
  refine ⟨?_, ?_, ?_, ?_⟩
  · rintro rfl
    refine ⟨rfl, fun td h => ?_⟩
    simp [Table.query, getFields, h, fmt_values, bindParams, filterRows_no_conds]
  · intro h
    cases fs with
    | nil => exact absurd rfl h
    | cons f t' => rfl
  · cases fs with
    | nil => rfl
    | cons f t' =>
        simp [queryStmtText, whereClause, List.map_map]
        rfl
  · intro hnd f hf
    rw [alookup_fmt_values]
    have hrev : (fs.reverse.map Field.name).Nodup := by
      rw [List.map_reverse]
      exact List.nodup_reverse.mpr hnd
    rw [find?_name_unique fs.reverse f hrev (List.mem_reverse.mpr hf)]

/-- C5 counterexample: with two expressions on the same field, the
operand of the first (`1`) is never bound — the claim's "every operand
value is bound via the parameterized execution call" fails. -/
theorem C5_counterexample :
    fmt_values [(mkField "x").greater_than (.int 1), (mkField "x").less_than (.int 5)]
      = [("x", PyVal.int 5)] ∧
    ¬ (∀ f ∈ [(mkField "x").greater_than (.int 1), (mkField "x").less_than (.int 5)],
        alookup (fmt_values [(mkField "x").greater_than (.int 1),
                             (mkField "x").less_than (.int 5)]) f.name
          = some f.value) := by
  refine ⟨rfl, fun h => ?_⟩
  have h1 := h ((mkField "x").greater_than (.int 1)) (by simp)
  have h2 : PyVal.int 5 = PyVal.int 1 :=
    Option.some.inj
      (show some (PyVal.int 5) = some (PyVal.int 1) from h1.symm.trans rfl |>.symm)
  injection h2 with h3
  exact absurd h3 (by decide)

/-- C5 witness: on a concrete single-expression query, the rendered
statement text and the bound operand are exactly as the amended claim
states, and the zero-argument query returns all rows. -/
theorem C5_query_compilation_witness :
    queryStmtText "t" [(mkField "x").equals (.int 3)] = "SELECT * FROM t WHERE x = %(x)s" ∧
    alookup (fmt_values [(mkField "x").equals (.int 3)]) "x" = some (PyVal.int 3) ∧
    (Table.query egInt "t" []).2 = .ok (.rows [[("x", .int 3)]]) := by
  have h1 := C5_query_compilation egInt "t" [(mkField "x").equals (.int 3)]
  have h0 := C5_query_compilation egInt "t" ([] : List Field)
  refine ⟨h1.2.1 (List.cons_ne_nil _ _), ?_, ?_⟩
  · exact h1.2.2.2 (by simp [mkField, Field.equals]) _ (List.mem_singleton.mpr rfl)
  · exact (h0.1 rfl).2 ⟨[("x", "bigint")], [[("x", .int 3)]]⟩ rfl

/-- C10: when the arguments are neither all filter expressions nor
exactly one string, neither branch of `query` executes a statement: the
engine state (including its statement log) is untouched and the call
fails at `fetchall()` with "no results to fetch". -/
theorem C10_invalid_args_fetch_fails (e : Engine) (t : String)
    (args : List QueryArg) (h1 : args.all QueryArg.isField = false)
    (h2 : ∀ s, args ≠ [QueryArg.raw s]) :
    Table.query e t args = (e, .error .noResultsToFetch) := by
  rcases args with _ | ⟨a, rest⟩
  · simp [List.all_nil] at h1
  · rcases a with f | s | v
    · simp [Table.query, h1]
    · rcases rest with _ | ⟨b, rest2⟩
      · exact absurd rfl (h2 s)
      · simp [Table.query, h1]
    · simp [Table.query, h1]

/-- C10 witness: two raw strings execute nothing and fail at fetch. -/
theorem C10_invalid_args_fetch_fails_witness :
    Table.query egVarchar "t" [.raw "a", .raw "b"]
      = (egVarchar, .error .noResultsToFetch) :=
  C10_invalid_args_fetch_fails egVarchar "t" [.raw "a", .raw "b"] rfl
    (fun s h => by simp at h)

/- Handle caching and table creation. -/

theorem lookupTable_setTable (e : Engine) (n : String) (td : TableData)
    (n' : String) :
    (e.setTable n td).lookupTable n' = if n = n' then some td else e.lookupTable n' := by
  simp [Engine.setTable, Engine.lookupTable, alookup_aupsert]

theorem lookupTable_init (e : Engine) (n : String) :
    (Table.init e n).lookupTable n
      = if (e.lookupTable n).isSome then e.lookupTable n else some ⟨[], []⟩ := by
  by_cases h : (alookup e.tables n).isSome = true
  · simp [Table.init, Table._exists, Table.columns, Engine.logStmt,
          Engine.lookupTable, h]
  · simp [Table.init, Table._exists, Table.columns, Engine.logStmt,
          Engine.lookupTable, Engine.setTable, alookup_aupsert, h]

/-- The number of CREATE TABLE statements issued so far. -/
def countCreate (e : Engine) : Nat := (e.log.filter Stmt.isCreate).length

theorem countCreate_init (e : Engine) (n : String) :
    countCreate (Table.init e n)
      = countCreate e + (if (e.lookupTable n).isSome then 0 else 1) := by
  by_cases h : (e.lookupTable n).isSome = true
  · simp [Table.init, Table._exists, Table.columns, Engine.logStmt, countCreate,
          List.filter_append, Stmt.isCreate, h]
  · simp [Table.init, Table._exists, Table.columns, Engine.logStmt, countCreate,
          Engine.setTable, List.filter_append, Stmt.isCreate, h]

/-- C7: calling `table(name)` twice returns the same handle both times,
and the second call issues no second CREATE TABLE.  (Python's eager
evaluation of the `dict.get` default does construct a throwaway `Table`
object on the second call, but its `__init__` sees the table existing
and creates nothing, and the cached handle is what is returned.) -/
theorem C7_table_idempotent (h : Helenus) (name : String) :
    ((h.table name).1.table name).2 = (h.table name).2 ∧
    countCreate ((h.table name).1.table name).1.eng
      = countCreate (h.table name).1.eng := by
  constructor
  · simp [Helenus.table, alookup_aupsert]
  · have hex : (((Table.init h.eng name).lookupTable name)).isSome = true := by
      rw [lookupTable_init]
      by_cases hc : (h.eng.lookupTable name).isSome = true <;> simp [hc]
    simp [Helenus.table, countCreate_init, hex]

/- Failing-fast on unmapped value kinds during schema reconciliation. -/

theorem columns_snd (e : Engine) (t : String) (td : TableData)
    (h : e.lookupTable t = some td) :
    (Table.columns e t).2 = td.cols.map (fun q => (q.1, dataTypeOf q.2)) := by
  simp [Table.columns, Engine.colsOf, h]

theorem insLoop_unmapped (t : String) (obj : List (String × PyVal)) :
    ∀ (e : Engine) (td : TableData), e.lookupTable t = some td →
      (obj.map Prod.fst).Nodup →
      ∀ k v, (k, v) ∈ obj →
        Table.type_mapping (pyTypeOf v) = Option.none →
        alookup td.cols k = Option.none →
        (insLoop t e obj).2 = .error .keyError ∧
        (insLoop t e obj).1.rowsOf t = e.rowsOf t ∧
        (insLoop t e obj).1.log.filter Stmt.isInsert
          = e.log.filter Stmt.isInsert := by
  induction obj with
  | nil =>
      intro e td hlt hnd k v hmem hunm habs
      exact absurd hmem (List.not_mem_nil _)
  | cons p rest ih =>
      obtain ⟨k1, v1⟩ := p
      intro e td hlt hnd k v hmem hunm habs
      have hcolssnd : (Table.columns e t).2
          = td.cols.map (fun q => (q.1, dataTypeOf q.2)) := columns_snd e t td hlt
      have hlt1 : (Table.columns e t).1.lookupTable t = some td := hlt
      have hlog1 : (Table.columns e t).1.log = e.log ++ [.catalogColumns t] := rfl
      have hpresIff : (alookup (Table.columns e t).2 k1).isSome
          = (alookup td.cols k1).isSome := by
        rw [hcolssnd, alookup_mapVal]
        cases alookup td.cols k1 <;> rfl
      have hnd' : (rest.map Prod.fst).Nodup := by
        simp only [List.map_cons, List.nodup_cons] at hnd
        exact hnd.2
      by_cases hpres : (alookup (Table.columns e t).2 k1).isSome = true
      · -- key already a column: loop just steps over it
        have hstep : insLoop t e ((k1, v1) :: rest)
            = insLoop t (Table.columns e t).1 rest := by
          simp [insLoop, hpres]
        have hmem' : (k, v) ∈ rest := by
          rcases List.mem_cons.mp hmem with heq | h'
          · exfalso
            obtain ⟨h1, h2⟩ := Prod.mk.injEq k v k1 v1 ▸ heq
            subst h1
            have hks : (alookup td.cols k).isSome = true := by
              rw [← hpresIff]; exact hpres
            rw [habs] at hks
            cases hks
          · exact h'
        obtain ⟨c1, c2, c3⟩ :=
          ih (Table.columns e t).1 td hlt1 hnd' k v hmem' hunm habs
        refine ⟨?_, ?_, ?_⟩
        · rw [hstep]; exact c1
        · rw [hstep, c2]; rfl
        · rw [hstep, c3, hlog1, List.filter_append]
          simp [Stmt.isInsert]
      · -- key is new: the type mapping is consulted
        cases hty : Table.type_mapping (pyTypeOf v1) with
        | none =>
            have hstep : insLoop t e ((k1, v1) :: rest)
                = ((Table.columns e t).1, .error .keyError) := by
              simp [insLoop, hpres, hty]
            rw [hstep]
            refine ⟨rfl, rfl, ?_⟩
            rw [hlog1, List.filter_append]
            simp [Stmt.isInsert]
        | some ty =>
            have hmem' : (k, v) ∈ rest := by
              rcases List.mem_cons.mp hmem with heq | h'
              · exfalso
                obtain ⟨h1, h2⟩ := Prod.mk.injEq k v k1 v1 ▸ heq
                subst h1; subst h2
                rw [hunm] at hty
                cases hty
              · exact h'
            have hknek1 : ¬ k1 = k := by
              intro hk
              subst hk
              have hin : k1 ∈ rest.map Prod.fst :=
                List.mem_map_of_mem Prod.fst hmem'
              simp only [List.map_cons, List.nodup_cons] at hnd
              exact hnd.1 hin
            have habs1 : alookup td.cols k1 = Option.none := by
              cases halo : alookup td.cols k1 with
              | none => rfl
              | some w =>
                  exact absurd (by rw [hpresIff, halo]; rfl) hpres
            have hadd : Table.add_column (Table.columns e t).1 t k1 ty
                = (((Table.columns e t).1.logStmt (.addColumn t k1 ty)).setTable t
                     ⟨td.cols ++ [(k1, ty)], td.rows⟩, .ok ()) := by
              simp [Table.add_column, Engine.logStmt, Engine.lookupTable,
                    show alookup (Table.columns e t).1.tables t = some td from hlt,
                    habs1]
            have hstep : insLoop t e ((k1, v1) :: rest)
                = insLoop t (Table.add_column (Table.columns e t).1 t k1 ty).1 rest := by
              simp [insLoop, hpres, hty, hadd]
            have hlt2 : (Table.add_column (Table.columns e t).1 t k1 ty).1.lookupTable t
                = some ⟨td.cols ++ [(k1, ty)], td.rows⟩ := by
              simp [hadd, lookupTable_setTable]
            have habs2 : alookup (td.cols ++ [(k1, ty)]) k = Option.none := by
              rw [alookup_append, habs]
              simp [alookup, hknek1]
            obtain ⟨c1, c2, c3⟩ :=
              ih (Table.add_column (Table.columns e t).1 t k1 ty).1
                ⟨td.cols ++ [(k1, ty)], td.rows⟩ hlt2 hnd' k v hmem' hunm habs2
            refine ⟨?_, ?_, ?_⟩
            · rw [hstep]; exact c1
            · rw [hstep, c2]
              have h2' : (Table.add_column (Table.columns e t).1 t k1 ty).1.rowsOf t
                  = td.rows := by
                simp [hadd, Engine.rowsOf, lookupTable_setTable]
              rw [h2']
              simp [Engine.rowsOf, hlt]
            · rw [hstep, c3]
              have hl : (Table.add_column (Table.columns e t).1 t k1 ty).1.log
                  = e.log ++ [.catalogColumns t, .addColumn t k1 ty] := by
                simp [hadd, Engine.logStmt, Engine.setTable, hlog1]
              rw [hl, List.filter_append]
              simp [Stmt.isInsert]

/-- C6 (amended): when the record contains a field of unmapped value
kind that is *not already a column* of the collection, `insert` fails
fast with the `type_mapping` lookup error (`KeyError`) during
reconciliation: the INSERT statement is never executed and no row is
written.  (When every unmapped-kind field is already a column, the
mapping is never consulted and the INSERT proceeds — see the
counterexample.) -/
theorem C6_unmapped_new_field_fails_fast (e : Engine) (t : String)
    (obj : List (String × PyVal)) (td : TableData) (k : String) (v : PyVal)
    (hlt : e.lookupTable t = some td)
    (hnd : (obj.map Prod.fst).Nodup)
    (hmem : (k, v) ∈ obj)
    (hunm : Table.type_mapping (pyTypeOf v) = Option.none)
    (habs : alookup td.cols k = Option.none) :
    (Table.insert e t obj).2 = .error .keyError ∧
    (Table.insert e t obj).1.rowsOf t = e.rowsOf t ∧
    (Table.insert e t obj).1.log.filter Stmt.isInsert
      = e.log.filter Stmt.isInsert := by
  obtain ⟨c1, c2, c3⟩ := insLoop_unmapped t obj e td hlt hnd k v hmem hunm habs
  rcases hins : insLoop t e obj with ⟨e1, r⟩
  rw [hins] at c1 c2 c3
  simp only at c1
  subst c1
  simp only [Table.insert, hins]
  exact ⟨trivial, c2, c3⟩

/-- C6 witness: inserting `{"y": None}` into a collection without a
column `y` raises `KeyError` before any INSERT and writes nothing. -/
theorem C6_unmapped_new_field_fails_fast_witness :
    (Table.insert egVarchar "t" [("y", PyVal.none)]).2 = .error .keyError ∧
    (Table.insert egVarchar "t" [("y", PyVal.none)]).1.rowsOf "t"
      = egVarchar.rowsOf "t" ∧
    (Table.insert egVarchar "t" [("y", PyVal.none)]).1.log.filter Stmt.isInsert
      = egVarchar.log.filter Stmt.isInsert :=
  C6_unmapped_new_field_fails_fast egVarchar "t" [("y", PyVal.none)]
    ⟨[("x", "varchar")], []⟩ "y" PyVal.none rfl (by simp) (by simp) rfl rfl

/- Monotonic schema growth: no caller-level operation removes a column,
changes a created column's storage type, or issues a CREATE TABLE. -/

/-- `e'` keeps every column (with its created storage type) of `e` and
has issued no additional CREATE TABLE statement. -/
def Preserves (e e' : Engine) : Prop :=
  (∀ t c ty, e.colType t c = some ty → e'.colType t c = some ty) ∧
  countCreate e' = countCreate e

theorem preserves_refl (e : Engine) : Preserves e e :=
  ⟨fun _ _ _ h => h, rfl⟩

theorem preserves_trans {a b c : Engine} (h1 : Preserves a b)
    (h2 : Preserves b c) : Preserves a c :=
  ⟨fun t co ty h => h2.1 t co ty (h1.1 t co ty h), h2.2.trans h1.2⟩

theorem colType_tables_congr (e e' : Engine) (h : e'.tables = e.tables)
    (t c : String) : e'.colType t c = e.colType t c := by
  simp [Engine.colType, Engine.colsOf, Engine.lookupTable, h]

theorem countCreate_logStmt (e : Engine) (s : Stmt) (h : s.isCreate = false) :
    countCreate (e.logStmt s) = countCreate e := by
  simp [countCreate, Engine.logStmt, List.filter_append, h]

theorem preserves_logStmt (e : Engine) (s : Stmt) (h : s.isCreate = false) :
    Preserves e (e.logStmt s) :=
  ⟨fun t c _ hc => (colType_tables_congr e (e.logStmt s) rfl t c) ▸ hc,
   countCreate_logStmt e s h⟩

theorem colType_setTable (e : Engine) (n : String) (td : TableData)
    (t c : String) :
    (e.setTable n td).colType t c
      = if n = t then alookup td.cols c else e.colType t c := by
  by_cases hnt : n = t <;>
    simp [Engine.colType, Engine.colsOf, Engine.lookupTable, Engine.setTable,
          alookup_aupsert, hnt]

theorem preserves_add_column (e : Engine) (tn cn ty : String) :
    Preserves e (Table.add_column e tn cn ty).1 := by
  unfold Table.add_column
  dsimp only
  cases hlt : (e.logStmt (Stmt.addColumn tn cn ty)).lookupTable tn with
  | none => exact preserves_logStmt e (Stmt.addColumn tn cn ty) rfl
  | some td =>
      dsimp only
      by_cases hp : (alookup td.cols cn).isSome = true
      · rw [if_pos hp]
        exact preserves_logStmt e (Stmt.addColumn tn cn ty) rfl
      · rw [if_neg hp]
        refine preserves_trans (preserves_logStmt e (Stmt.addColumn tn cn ty) rfl) ⟨?_, ?_⟩
        · intro t c ty0 hc
          rw [colType_setTable]
          by_cases hnt : tn = t
          · subst hnt
            have hcols : (e.logStmt (Stmt.addColumn tn cn ty)).colsOf tn = td.cols := by
              simp [Engine.colsOf, hlt]
            rw [if_pos rfl, alookup_append]
            have : alookup td.cols c = some ty0 := by
              have := hc
              simp only [Engine.colType, hcols] at this
              exact this
            simp [this]
          · simpa [hnt] using hc
        · simp [countCreate, Engine.setTable, Engine.logStmt]

theorem preserves_columns (e : Engine) (n : String) :
    Preserves e (Table.columns e n).1 :=
  preserves_logStmt e _ rfl

theorem preserves_insLoop (t : String) (obj : List (String × PyVal)) :
    ∀ e : Engine, Preserves e (insLoop t e obj).1 := by
  induction obj with
  | nil => intro e; exact preserves_refl e
  | cons p rest ih =>
      intro e
      obtain ⟨k, v⟩ := p
      by_cases hpres : (alookup (Table.columns e t).2 k).isSome = true
      · have hstep : insLoop t e ((k, v) :: rest)
            = insLoop t (Table.columns e t).1 rest := by
          simp [insLoop, hpres]
        rw [hstep]
        exact preserves_trans (preserves_columns e t) (ih _)
      · cases hty : Table.type_mapping (pyTypeOf v) with
        | none =>
            have hstep : insLoop t e ((k, v) :: rest)
                = ((Table.columns e t).1, .error .keyError) := by
              simp [insLoop, hpres, hty]
            rw [hstep]
            exact preserves_columns e t
        | some ty =>
            rcases hadd : Table.add_column (Table.columns e t).1 t k ty with ⟨e2, r⟩
            have hpre2 : Preserves e e2 := by
              have := preserves_trans (preserves_columns e t)
                (preserves_add_column (Table.columns e t).1 t k ty)
              rwa [hadd] at this
            cases r with
            | ok u =>
                have hstep : insLoop t e ((k, v) :: rest) = insLoop t e2 rest := by
                  simp [insLoop, hpres, hty, hadd]
                rw [hstep]
                exact preserves_trans hpre2 (ih e2)
            | error er =>
                have hstep : insLoop t e ((k, v) :: rest) = (e2, .error er) := by
                  simp [insLoop, hpres, hty, hadd]
                rw [hstep]
                exact hpre2

theorem preserves_execInsert (e : Engine) (tn st : String)
    (ps : List (String × Option SqlVal)) :
    Preserves e (Engine.execInsert e tn st ps).1 := by
  unfold Engine.execInsert
  dsimp only
  cases hlt : (e.logStmt (Stmt.insertRow st)).lookupTable tn with
  | none => exact preserves_logStmt e (Stmt.insertRow st) rfl
  | some td =>
      dsimp only
      by_cases htc : typeCheck td.cols ps = true
      · rw [if_pos htc]
        refine preserves_trans (preserves_logStmt e (Stmt.insertRow st) rfl) ⟨?_, ?_⟩
        · intro t c ty0 hc
          rw [colType_setTable]
          by_cases hnt : tn = t
          · subst hnt
            have hcols : (e.logStmt (Stmt.insertRow st)).colsOf tn = td.cols := by
              simp [Engine.colsOf, hlt]
            rw [if_pos rfl]
            have := hc
            simp only [Engine.colType, hcols] at this
            exact this
          · simpa [hnt] using hc
        · simp [countCreate, Engine.setTable, Engine.logStmt]
      · rw [if_neg htc]
        exact preserves_logStmt e (Stmt.insertRow st) rfl

theorem preserves_insert (e : Engine) (tn : String)
    (obj : List (String × PyVal)) :
    Preserves e (Table.insert e tn obj).1 := by
  unfold Table.insert
  dsimp only
  rcases hins : insLoop tn e obj with ⟨e1, r⟩
  have h1 : Preserves e e1 := by
    have := preserves_insLoop tn obj e
    rwa [hins] at this
  cases r with
  | error er => exact h1
  | ok u =>
      cases hbp : bindInsertParams (Table.columns e1 tn).2 obj with
      | error er =>
          simp only [hbp]
          exact preserves_trans h1 (preserves_columns e1 tn)
      | ok params =>
          simp only [hbp]
          exact preserves_trans h1
            (preserves_trans (preserves_columns e1 tn)
              (preserves_execInsert (Table.columns e1 tn).1 tn _ params))

theorem preserves_query (e : Engine) (tn : String) (args : List QueryArg) :
    Preserves e (Table.query e tn args).1 := by
  unfold Table.query
  dsimp only
  repeat' split
  all_goals first
    | exact preserves_refl e
    | (refine preserves_logStmt e _ ?_; rfl)

theorem preserves_truncate (e : Engine) (tn : String) :
    Preserves e (Table.truncate e tn).1 := by
  unfold Table.truncate
  dsimp only
  cases hlt : (e.logStmt (Stmt.truncateT tn)).lookupTable tn with
  | none => exact preserves_logStmt e (Stmt.truncateT tn) rfl
  | some td =>
      dsimp only
      refine preserves_trans (preserves_logStmt e (Stmt.truncateT tn) rfl) ⟨?_, ?_⟩
      · intro t c ty0 hc
        rw [colType_setTable]
        by_cases hnt : tn = t
        · subst hnt
          have hcols : (e.logStmt (Stmt.truncateT tn)).colsOf tn = td.cols := by
            simp [Engine.colsOf, hlt]
          rw [if_pos rfl]
          have := hc
          simp only [Engine.colType, hcols] at this
          exact this
        · simpa [hnt] using hc
      · simp [countCreate, Engine.setTable, Engine.logStmt]

theorem preserves_runOp (e : Engine) (op : Op) : Preserves e (runOp e op) := by
  cases op with
  | ins tn obj => exact preserves_insert e tn obj
  | qry tn args => exact preserves_query e tn args
  | trunc tn => exact preserves_truncate e tn

theorem preserves_runOps (e : Engine) (ops : List Op) :
    Preserves e (runOps e ops) := by
  induction ops generalizing e with
  | nil => exact preserves_refl e
  | cons op rest ih =>
      exact preserves_trans (preserves_runOp e op) (ih (runOp e op))

/-- C8: across any sequence of caller-level operations (insert, query,
truncate) the column map only grows: every column keeps the storage
type it was created with, and no CREATE TABLE is ever issued by these
operations (the model's statement vocabulary contains no DROP or ALTER
TYPE at all; the only schema statements the code can issue are CREATE
TABLE — from handle initialization — and additive ADD COLUMN IF NOT
EXISTS). -/
theorem C8_schema_monotonic (e : Engine) (ops : List Op) (t c ty : String)
    (h : e.colType t c = some ty) :
    (runOps e ops).colType t c = some ty ∧
    countCreate (runOps e ops) = countCreate e :=
  ⟨(preserves_runOps e ops).1 t c ty h, (preserves_runOps e ops).2⟩

/-- C8 witness: an insert that adds a column, a query, and a truncate
leave the pre-existing `varchar` column `x` intact and create nothing. -/
theorem C8_schema_monotonic_witness :
    egVarchar.colType "t" "x" = some "varchar" ∧
    (runOps egVarchar [.ins "t" [("z", PyVal.int 7)], .qry "t" [], .trunc "t"]).colType "t" "x"
      = some "varchar" ∧
    countCreate (runOps egVarchar [.ins "t" [("z", PyVal.int 7)], .qry "t" [], .trunc "t"])
      = countCreate egVarchar := by
  have h := C8_schema_monotonic egVarchar
    [.ins "t" [("z", PyVal.int 7)], .qry "t" [], .trunc "t"] "t" "x" "varchar" rfl
  exact ⟨rfl, h.1, h.2⟩

end helenus

